import Mathlib

/-!
Verification development for the me-trade backtesting core.

The definitions below are shallow embeddings of the Python source:
  * `src/src/data/indicators.py`   (IndicatorCalculator)
  * `src/src/backtest/metrics.py`  (MetricsCalculator)
  * `src/src/strategy/compiler.py` (StrategyCompiler and the generated strategy)
  * `src/src/backtest/engine.py`   (BacktestEngine.run_backtest)

Machine floats are modelled by the type `FV α` below: a finite value of an
ordered field together with the IEEE special values NaN, +inf and -inf that
pandas/numpy arithmetic produces on division by zero and degenerate
aggregations.  Exact price and cash arithmetic is carried out in `ℚ`
(indicators, simulation engine) and in `ℝ` where the source applies
irrational operations such as fractional powers and square roots (metrics).
-/

namespace MeTrade

/-- Model of an IEEE-style floating point value over an ordered field:
either NaN, a signed infinity, or a finite value. -/
inductive FV (α : Type) where
  | nan : FV α
  | inf : FV α
  | ninf : FV α
  | fin : α → FV α
deriving DecidableEq

namespace FV

variable {α : Type} [LinearOrderedField α]

/-- True exactly on NaN. -/
def isNan : FV α → Bool
  | nan => true
  | _ => false

/-- IEEE negation. -/
def neg : FV α → FV α
  | nan => nan
  | inf => ninf
  | ninf => inf
  | fin a => fin (-a)

/-- IEEE addition: NaN propagates, opposite infinities give NaN. -/
def add : FV α → FV α → FV α
  | nan, _ => nan
  | _, nan => nan
  | inf, ninf => nan
  | ninf, inf => nan
  | inf, _ => inf
  | _, inf => inf
  | ninf, _ => ninf
  | _, ninf => ninf
  | fin a, fin b => fin (a + b)

/-- IEEE subtraction, via addition of the negation. -/
def sub (a b : FV α) : FV α := add a (neg b)

/-- IEEE multiplication: NaN propagates, infinity times zero is NaN. -/
def mul : FV α → FV α → FV α
  | nan, _ => nan
  | _, nan => nan
  | inf, inf => inf
  | inf, ninf => ninf
  | ninf, inf => ninf
  | ninf, ninf => inf
  | inf, fin b => if b = 0 then nan else if 0 < b then inf else ninf
  | fin a, inf => if a = 0 then nan else if 0 < a then inf else ninf
  | ninf, fin b => if b = 0 then nan else if 0 < b then ninf else inf
  | fin a, ninf => if a = 0 then nan else if 0 < a then ninf else inf
  | fin a, fin b => fin (a * b)

/-- IEEE division: NaN propagates, x/0 is a signed infinity for x ≠ 0 and
NaN for x = 0 (numpy emits a warning, never an exception), finite/infinite
collapses to zero. -/
def div : FV α → FV α → FV α
  | nan, _ => nan
  | _, nan => nan
  | inf, inf => nan
  | inf, ninf => nan
  | ninf, inf => nan
  | ninf, ninf => nan
  | inf, fin b => if b < 0 then ninf else inf
  | ninf, fin b => if b < 0 then inf else ninf
  | fin _, inf => fin 0
  | fin _, ninf => fin 0
  | fin a, fin b =>
      if b = 0 then (if a = 0 then nan else if 0 < a then inf else ninf)
      else fin (a / b)

/-- IEEE strict less-than: any comparison involving NaN is false. -/
def blt : FV α → FV α → Bool
  | fin a, fin b => decide (a < b)
  | fin _, inf => true
  | ninf, fin _ => true
  | ninf, inf => true
  | _, _ => false

/-- IEEE less-or-equal: any comparison involving NaN is false. -/
def ble : FV α → FV α → Bool
  | nan, _ => false
  | _, nan => false
  | fin a, fin b => decide (a ≤ b)
  | fin _, inf => true
  | fin _, ninf => false
  | inf, inf => true
  | inf, _ => false
  | ninf, _ => true

/-- IEEE equality test: NaN is not equal to anything, including itself. -/
def beq : FV α → FV α → Bool
  | fin a, fin b => decide (a = b)
  | inf, inf => true
  | ninf, ninf => true
  | _, _ => false

/-- Test for equality with floating zero (the `== 0` guards in metrics.py). -/
def eqZero (a : FV α) : Bool := beq a (fin 0)

/-- IEEE absolute value. -/
def abs : FV α → FV α
  | nan => nan
  | inf => inf
  | ninf => inf
  | fin a => fin |a|

theorem mul_nan (a : FV α) : mul FV.nan a = FV.nan := by cases a <;> rfl

theorem div_nan (a : FV α) : div a FV.nan = FV.nan := by cases a <;> rfl

theorem sub_nan (a : FV α) : sub a FV.nan = FV.nan := by cases a <;> rfl

end FV

/-! ## Indicator library (src/src/data/indicators.py, IndicatorCalculator)

Price series are lists of exact rationals (the OHLCV close column holds
plain finite floats); indicator outputs are `FV ℚ` series because the
pandas transforms introduce NaN during warm-up and on zero division. -/

/-- pandas `Series.diff()`: first element NaN, then successive differences. -/
def diffSeries (prices : List ℚ) : List (FV ℚ) :=
  match prices with
  | [] => []
  | _ :: _ => FV.nan :: List.zipWith (fun a b => FV.fin (a - b)) prices.tail prices

/-- The series `delta.where(delta > 0, 0)` from calculate_rsi: keeps a
positive difference, and replaces both non-positive differences and the
leading NaN by 0 (a NaN fails the `> 0` test, so `where` substitutes 0). -/
def gainSeries (prices : List ℚ) : List ℚ :=
  (diffSeries prices).map fun d =>
    match d with
    | FV.fin x => if 0 < x then x else 0
    | _ => 0

/-- The series `-delta.where(delta < 0, 0)` from calculate_rsi. -/
def lossSeries (prices : List ℚ) : List ℚ :=
  (diffSeries prices).map fun d =>
    match d with
    | FV.fin x => if x < 0 then -x else 0
    | _ => 0

/-- pandas `rolling(window=period).mean()` at one index of a NaN-free
series: NaN until the window is full, then the arithmetic mean of the
trailing `period` values.  (pandas rejects a non-positive window with an
exception; that case is mapped to NaN and excluded by hypotheses.) -/
def rollMeanAt (xs : List ℚ) (period i : ℕ) : FV ℚ :=
  if i < xs.length ∧ period ≤ i + 1 ∧ 1 ≤ period then
    FV.fin ((((xs.drop (i + 1 - period)).take period).sum) / period)
  else FV.nan

/-- IndicatorCalculator.calculate_rsi: average gain and loss over `period`
bars via rolling means, RS = gain/loss under float semantics, and
`RSI = 100 - 100/(1 + RS)`. -/
def calculate_rsi (prices : List ℚ) (period : ℕ) : List (FV ℚ) :=
  (List.range prices.length).map fun i =>
    let gain := rollMeanAt (gainSeries prices) period i
    let loss := rollMeanAt (lossSeries prices) period i
    let rs := FV.div gain loss
    FV.sub (FV.fin 100) (FV.div (FV.fin 100) (FV.add (FV.fin 1) rs))

/-- The tail recursion of pandas `ewm(span=period, adjust=False).mean()`:
each output is `(1 - alpha) * previous + alpha * x`. -/
def ewmFrom (alpha : ℚ) : ℚ → List ℚ → List ℚ
  | _, [] => []
  | prev, x :: xs =>
      let y := (1 - alpha) * prev + alpha * x
      y :: ewmFrom alpha y xs

/-- IndicatorCalculator.calculate_ema: pandas exponentially weighted mean
with `span = period` and `adjust=False`, i.e. smoothing factor
`alpha = 2/(period + 1)` seeded by the first value. -/
def calculate_ema (prices : List ℚ) (period : ℕ) : List ℚ :=
  match prices with
  | [] => []
  | x :: xs => x :: ewmFrom (2 / ((period : ℚ) + 1)) x xs

/-- The recursive EMA definition stated by the specification:
`ema[0] = x[0]` and `ema[i] = alpha * x[i] + (1 - alpha) * ema[i-1]`. -/
def emaSpecAt (alpha : ℚ) (prices : List ℚ) : ℕ → Option ℚ
  | 0 => prices[0]?
  | i + 1 =>
      match prices[i + 1]?, emaSpecAt alpha prices i with
      | some x, some prev => some (alpha * x + (1 - alpha) * prev)
      | _, _ => none

/-! ## Metrics engine (src/src/backtest/metrics.py, MetricsCalculator)

The equity curve is a list of (date, value) samples; dates are day numbers
(the source parses date strings with pandas and takes the span in days).
Metric values live in `FV ℝ` because the source mixes NaN-producing float
aggregations with irrational operations (fractional powers, square roots). -/

/-- One row of the equity-curve DataFrame: a date (day number) and a
portfolio value. -/
structure Sample where
  date : ℤ
  value : ℝ

/-- pandas skip-NA aggregation support: the finite elements of a series. -/
def finsOf {α : Type} (xs : List (FV α)) : List α :=
  xs.filterMap fun v =>
    match v with
    | FV.fin a => some a
    | _ => none

/-- Whether a series contains +inf. -/
def hasInf {α : Type} (xs : List (FV α)) : Bool :=
  xs.any fun v =>
    match v with
    | FV.inf => true
    | _ => false

/-- Whether a series contains -inf. -/
def hasNinf {α : Type} (xs : List (FV α)) : Bool :=
  xs.any fun v =>
    match v with
    | FV.ninf => true
    | _ => false

/-- The number of non-NaN entries of a series. -/
def countNonNan {α : Type} (xs : List (FV α)) : ℕ :=
  (xs.filter fun v => !v.isNan).length

/-- pandas `Series.mean()` with default skipna: NaN entries are ignored,
an empty (or all-NaN) series gives NaN, infinities dominate. -/
def seriesMean {α : Type} [LinearOrderedField α] (xs : List (FV α)) : FV α :=
  if countNonNan xs = 0 then FV.nan
  else if hasInf xs && hasNinf xs then FV.nan
  else if hasInf xs then FV.inf
  else if hasNinf xs then FV.ninf
  else FV.fin ((finsOf xs).sum / (countNonNan xs : α))

/-- pandas `Series.std()` with the default ddof = 1 and skipna: NaN when
fewer than two non-NaN samples exist (the variance denominator n - 1 is
zero for a single sample), NaN when an infinity is present, otherwise the
square root of the unbiased sample variance. -/
noncomputable def seriesStd (xs : List (FV ℝ)) : FV ℝ :=
  let n := countNonNan xs
  if n ≤ 1 then FV.nan
  else if hasInf xs || hasNinf xs then FV.nan
  else
    let v := finsOf xs
    let m := v.sum / (n : ℝ)
    FV.fin (Real.sqrt ((v.map fun x => (x - m) ^ 2).sum / ((n : ℝ) - 1)))

/-- pandas `Series.min()` with skipna: NaN entries are dropped, the minimum
of nothing is NaN. -/
def seriesMin {α : Type} [LinearOrderedField α] (xs : List (FV α)) : FV α :=
  match xs.filter (fun v => !v.isNan) with
  | [] => FV.nan
  | h :: t => t.foldl (fun a b => if FV.ble a b then a else b) h

/-- pandas `Series.pct_change()`: NaN at index 0, then `v[i]/v[i-1] - 1`
under float division semantics. -/
noncomputable def pct_change (vals : List ℝ) : List (FV ℝ) :=
  match vals with
  | [] => []
  | _ :: _ =>
      FV.nan ::
        List.zipWith (fun a b => FV.sub (FV.div (FV.fin a) (FV.fin b)) (FV.fin 1))
          vals.tail vals

/-- pandas `Series.dropna()`. -/
def dropna (xs : List (FV ℝ)) : List (FV ℝ) :=
  xs.filter fun v => !v.isNan

/-- MetricsCalculator.total_return: `(end - start)/start`, 0 for fewer than
two samples or a zero starting value. -/
noncomputable def total_return (curve : List Sample) : ℝ :=
  if curve.length < 2 then 0
  else
    let s := ((curve.head?).map Sample.value).getD 0
    let e := ((curve.getLast?).map Sample.value).getD 0
    if s = 0 then 0 else (e - s) / s

/-- MetricsCalculator.cagr: `(end/start)^(1/years) - 1` with years taken
from the calendar span in days over 365.25; 0 for fewer than two samples,
a non-positive span or a non-positive starting value. -/
noncomputable def cagr (curve : List Sample) : ℝ :=
  if curve.length < 2 then 0
  else
    let s := ((curve.head?).map Sample.value).getD 0
    let e := ((curve.getLast?).map Sample.value).getD 0
    let days : ℤ := ((curve.getLast?).map Sample.date).getD 0 -
      ((curve.head?).map Sample.date).getD 0
    let years : ℝ := (days : ℝ) / 365.25
    if years ≤ 0 ∨ s ≤ 0 then 0
    else (e / s) ^ ((1 : ℝ) / years) - 1

/-- Running maxima of a list, seeded by an initial bound. -/
def cummaxFrom (m : ℝ) : List ℝ → List ℝ
  | [] => []
  | x :: xs =>
      let m2 := max m x
      m2 :: cummaxFrom m2 xs

/-- MetricsCalculator.max_drawdown: minimum over the series of
`(value - cummax)/cummax`; 0.0 for an empty curve.  The division is float
division, so a curve starting at 0 produces NaN entries which `min`
skips (an all-NaN series has NaN minimum). -/
noncomputable def max_drawdown (curve : List Sample) : FV ℝ :=
  if curve.isEmpty then FV.fin 0
  else
    let values := curve.map Sample.value
    let cm :=
      match values with
      | [] => []
      | v :: _ => cummaxFrom v values
    seriesMin (List.zipWith (fun v m => FV.div (FV.fin (v - m)) (FV.fin m)) values cm)

/-- MetricsCalculator.sharpe_ratio: 0 for an empty series or zero standard
deviation, otherwise annualized mean excess return over its standard
deviation, with the daily risk-free rate `(1 + rf)^(1/252) - 1` derived
from the 2 percent annual default. -/
noncomputable def sharpe (returns : List (FV ℝ)) (risk_free : Option ℝ) : FV ℝ :=
  if returns.isEmpty || FV.eqZero (seriesStd returns) then FV.fin 0
  else
    let rf := risk_free.getD (2 / 100)
    let daily_rf := ((1 : ℝ) + rf) ^ ((1 : ℝ) / 252) - 1
    let excess := returns.map fun r => FV.sub r (FV.fin daily_rf)
    FV.mul (FV.div (seriesMean excess) (seriesStd excess)) (FV.fin (Real.sqrt 252))

/-- MetricsCalculator.sortino_ratio: 0 for an empty series; the downside
sub-series keeps the returns strictly below the daily risk-free rate; 0
when it is empty or its standard deviation compares equal to 0, otherwise
annualized mean excess return over the downside standard deviation.  Note
the guard is a float `== 0` test, which a NaN standard deviation fails. -/
noncomputable def sortino (returns : List (FV ℝ)) (risk_free : Option ℝ) : FV ℝ :=
  if returns.isEmpty then FV.fin 0
  else
    let rf := risk_free.getD (2 / 100)
    let daily_rf := ((1 : ℝ) + rf) ^ ((1 : ℝ) / 252) - 1
    let downside := returns.filter fun r => FV.blt r (FV.fin daily_rf)
    if downside.isEmpty || FV.eqZero (seriesStd downside) then FV.fin 0
    else
      FV.mul
        (FV.div (FV.sub (seriesMean returns) (FV.fin daily_rf)) (seriesStd downside))
        (FV.fin (Real.sqrt 252))

/-- MetricsCalculator.calmar_ratio: CAGR over the absolute max drawdown,
0 when the drawdown compares equal to 0. -/
noncomputable def calmar (curve : List Sample) : FV ℝ :=
  let c := cagr curve
  let mdd := FV.abs (max_drawdown curve)
  if FV.eqZero mdd then FV.fin 0
  else FV.div (FV.fin c) mdd

/-- The metrics dictionary assembled by calculate_metrics. -/
structure Metrics where
  tot_return : FV ℝ
  cagr : FV ℝ
  max_dd : FV ℝ
  sharpe : FV ℝ
  sortino : FV ℝ
  calmar : FV ℝ
  excess_return : Option (FV ℝ)

/-- MetricsCalculator.calculate_metrics: an empty curve yields the empty
dictionary (modelled as `none`); otherwise all six metrics are computed,
the ratio inputs being the NaN-dropped percentage changes of the value
column, plus the excess return when a non-empty benchmark is supplied. -/
noncomputable def calculate_metrics (curve : List Sample)
    (benchmark : Option (List Sample)) : Option Metrics :=
  if curve.isEmpty then none
  else
    let returns := dropna (pct_change (curve.map Sample.value))
    some
      { tot_return := FV.fin (total_return curve)
        cagr := FV.fin (cagr curve)
        max_dd := max_drawdown curve
        sharpe := sharpe returns none
        sortino := sortino returns none
        calmar := calmar curve
        excess_return :=
          match benchmark with
          | some b =>
              if b.isEmpty then none
              else some (FV.sub (FV.fin (total_return curve)) (FV.fin (total_return b)))
          | none => none }

/-! ## Strategy compiler (src/src/strategy/compiler.py, StrategyCompiler)

The compiler turns the strategy dictionary into the generated Backtrader
strategy class.  The embedding compiles the same dictionaries into a
first-order rule structure carrying exactly the information the generated
code closes over: the data-feed line name and operator of each entry
condition, and the kind and percentage of each exit clause. -/

/-- The raw right-hand side of an entry condition dictionary: a numeric
literal or a nested indicator reference. -/
inductive RawRhs where
  | num : ℚ → RawRhs
  | indref : String → Option ℕ → RawRhs
deriving DecidableEq

/-- One raw entry condition dictionary (`.get` defaults mirror the source:
period 14, operator `>`). -/
structure EntryCondDict where
  ctype : String
  ind : String
  period : Option ℕ
  op : Option String
  rhs : RawRhs
deriving DecidableEq

/-- One raw exit condition dictionary; a missing percent defaults to 0.1
in `_generate_exit_logic`. -/
structure ExitCondDict where
  ctype : String
  percent : Option ℚ
deriving DecidableEq

/-- The position dictionary; `_generate_position_sizing` defaults the
sizing mode to percent_cash and the value to 0.25. -/
structure PositionDict where
  sizing : Option String
  value : Option ℚ
deriving DecidableEq

/-- StrategyCompiler._indicator_expression: maps an indicator name and
period to the data-feed line it reads, or `none` when the name is unknown
(the source produces the empty expression, and the caller silently drops
the condition). -/
def indicatorLine (ind : String) (period : ℕ) : Option String :=
  if ind = "SMA" then some ("sma_" ++ toString period)
  else if ind = "EMA" then some ("ema_" ++ toString period)
  else if ind = "RSI" then some ("rsi_" ++ toString period)
  else if ind = "MACD" then some "macd"
  else if ind = "MACD_SIGNAL" then some "macd_signal"
  else if ind = "MACD_HISTOGRAM" then some "macd_histogram"
  else none

/-- A compiled right-hand side: a literal, or a data-feed line to read. -/
inductive CondRhs where
  | lit : ℚ → CondRhs
  | ind : String → CondRhs
deriving DecidableEq

/-- A compiled entry condition: feed line, operator string (embedded
verbatim, unvalidated), right-hand side. -/
structure CompiledCond where
  line : String
  op : String
  rhs : CondRhs
deriving DecidableEq

/-- StrategyCompiler._generate_entry_logic: keeps the conditions of type
indicator whose left indicator has a known line; a condition with an
unknown left indicator is dropped without error.  An unknown right-hand
indicator compiles to the empty line name (the source emits an empty
expression there). -/
def compileEntry (conds : List EntryCondDict) : List CompiledCond :=
  conds.filterMap fun c =>
    if c.ctype ≠ "indicator" then none
    else
      match indicatorLine c.ind (c.period.getD 14) with
      | none => none
      | some line =>
          some
            { line := line
              op := c.op.getD ">"
              rhs :=
                match c.rhs with
                | RawRhs.num x => CondRhs.lit x
                | RawRhs.indref i p =>
                    CondRhs.ind ((indicatorLine i (p.getD 14)).getD "") }

/-- The four exit-rule kinds recognized by `_generate_exit_logic`. -/
inductive ExitKind where
  | trailing_stop
  | stop_loss
  | take_profit
  | profit_target
deriving DecidableEq

/-- A compiled exit clause of the generated if/elif chain. -/
structure ExitClause where
  kind : ExitKind
  percent : ℚ
deriving DecidableEq

/-- StrategyCompiler._generate_exit_logic: each recognized exit dictionary
becomes one clause, in declaration order; the percentage is embedded
as-is with no range check, a missing percentage defaults to 0.1, an
unrecognized type is dropped. -/
def compileExit (conds : List ExitCondDict) : List ExitClause :=
  conds.filterMap fun c =>
    let pct := c.percent.getD (1 / 10)
    if c.ctype = "trailing_stop" then some ⟨ExitKind.trailing_stop, pct⟩
    else if c.ctype = "stop_loss" then some ⟨ExitKind.stop_loss, pct⟩
    else if c.ctype = "take_profit" then some ⟨ExitKind.take_profit, pct⟩
    else if c.ctype = "profit_target" then some ⟨ExitKind.profit_target, pct⟩
    else none

/-- Python `int()` truncation toward zero of a rational. -/
def truncQ (q : ℚ) : ℤ := if q < 0 then -⌊-q⌋ else ⌊q⌋

/-- The generated `_determine_size` (from
StrategyCompiler._generate_position_sizing): percent_cash floors
`cash * value / price` and, when that is not positive, falls back to
flooring `cash / price`; fixed returns the truncated configured count;
a missing or unknown sizing mode returns 0 shares. -/
def determine_size (position_config : PositionDict) (cash : ℚ) (price : Option ℚ) : ℤ :=
  let sizing := position_config.sizing.getD "percent_cash"
  let value := position_config.value.getD (1 / 4)
  if sizing = "percent_cash" then
    match price with
    | none => 0
    | some p =>
        if p ≤ 0 then 0
        else if cash ≤ 0 then 0
        else
          let size := ⌊cash * value / p⌋
          let size2 := if size ≤ 0 then ⌊cash / p⌋ else size
          max size2 0
  else if sizing = "fixed" then max (truncQ value) 0
  else 0

/-- The whole compiled strategy: entry conditions, exit clauses and the
position sizing configuration the generated class closes over. -/
structure CompiledStrategy where
  entry : List CompiledCond
  exits : List ExitClause
  position_config : PositionDict
deriving DecidableEq

/-! ## Generated strategy semantics and engine loop
(src/src/strategy/compiler.py template + src/src/backtest/engine.py)

The broker model is the part of Backtrader the generated code relies on:
market orders placed during `next` are processed at the following bar
(rejected without a trade record when the cash cannot cover a buy),
fills happen at the bar close adjusted by the configured percentage
slippage, and the commission parameter acts as Backtrader's default
percentage-of-value scheme. -/

/-- A bar of the IndicatorDataFeed: date, close, and the indicator lines
present as columns (a missing line reads as NaN). -/
structure Bar where
  date : String
  close : ℚ
  inds : List (String × FV ℚ)
deriving DecidableEq

/-- Reading an indicator line from the current bar
(`self.data.sma_20[0]` and friends); absent columns are NaN. -/
def barInd (bar : Bar) (line : String) : FV ℚ :=
  (bar.inds.lookup line).getD FV.nan

/-- Evaluating a compiled right-hand side on the current bar. -/
def rhsVal (bar : Bar) : CondRhs → FV ℚ
  | CondRhs.lit x => FV.fin x
  | CondRhs.ind line => barInd bar line

/-- The comparison operators the generated code can contain, under float
semantics (NaN compares false).  The operator string is embedded verbatim
by the compiler; a string that is not one of these would make the
generated code fail to parse, never reaching evaluation. -/
def evalOp (op : String) (a b : FV ℚ) : Bool :=
  if op = ">" then FV.blt b a
  else if op = "<" then FV.blt a b
  else if op = ">=" then FV.ble b a
  else if op = "<=" then FV.ble a b
  else if op = "==" then FV.beq a b
  else false

/-- Whether one generated exit clause fires: each clause first tests the
truthiness of `self.buy_price` (None or 0.0 is falsy), then compares the
close against the entry price scaled by the percentage. -/
def clauseFires (c : ExitClause) (buy_price : Option ℚ) (close : ℚ) : Bool :=
  match buy_price with
  | none => false
  | some bp =>
      if bp = 0 then false
      else
        match c.kind with
        | ExitKind.trailing_stop => decide (close ≤ bp * (1 - c.percent))
        | ExitKind.stop_loss => decide (close ≤ bp * (1 - c.percent))
        | ExitKind.take_profit => decide (bp * (1 + c.percent) ≤ close)
        | ExitKind.profit_target => decide (bp * (1 + c.percent) ≤ close)

/-- The generated if/elif exit chain: the first clause whose predicate
holds is selected; clauses after it are not evaluated. -/
def exitDecision (clauses : List ExitClause) (buy_price : Option ℚ) (close : ℚ) :
    Option ExitClause :=
  match clauses with
  | [] => none
  | c :: rest =>
      if clauseFires c buy_price close then some c
      else exitDecision rest buy_price close

/-- Order side. -/
inductive Side where
  | buy
  | sell
deriving DecidableEq

/-- The diagnostic reason attached to an order: the entry condition list
or the exit clause that fired (the generated code renders these as
strings; the rendering is injective on this data). -/
inductive Reason where
  | entrySignal : List CompiledCond → Reason
  | exitRule : ExitClause → Reason
deriving DecidableEq

/-- A pending order (`self.order`): side, requested size, reason. -/
structure PendingOrder where
  side : Side
  size : ℕ
  reason : Reason
deriving DecidableEq

/-- One row of the generated strategy trade log (notify_order record). -/
structure TradeRec where
  timestamp : String
  side : Side
  size : ℕ
  price : ℚ
  value : ℚ
  commission : ℚ
  reason : Reason
deriving DecidableEq

/-- One record of the EquityCurveAnalyzer. -/
structure EquitySample where
  timestamp : String
  value : ℚ
  cash : ℚ
  pnl : ℚ
  return_pct : ℚ
deriving DecidableEq

/-- Run-time state of the generated strategy plus broker: cash, the signed
position size, `self.buy_price`, `self.order`, and the trade log (newest
record first; the engine reverses it on output). -/
structure StratState where
  cash : ℚ
  position : ℤ
  buy_price : Option ℚ
  order : Option PendingOrder
  trade_log : List TradeRec
deriving DecidableEq

/-- Cost parameters handed to the engine: commission (Backtrader default
percentage-of-value scheme), slippage in basis points, initial cash. -/
structure CostParams where
  commission : ℚ
  slippage_bps : ℚ
  cash : ℚ
deriving DecidableEq

/-- Broker order processing at the start of a bar: a pending buy fills at
`close * (1 + slippage)` when cash covers cost plus commission (otherwise
it is rejected with no trade record); a pending sell fills at
`close * (1 - slippage)`.  notify_order records the trade, updates
`self.buy_price`, and clears `self.order` in every branch. -/
def fillOrder (p : CostParams) (bar : Bar) (s : StratState) : StratState :=
  match s.order with
  | none => s
  | some o =>
      let slip := p.slippage_bps / 10000
      match o.side with
      | Side.buy =>
          let price := bar.close * (1 + slip)
          let cost := (o.size : ℚ) * price
          let comm := cost * p.commission
          if cost + comm ≤ s.cash then
            { s with
              cash := s.cash - cost - comm
              position := s.position + (o.size : ℤ)
              buy_price := some price
              order := none
              trade_log := ⟨bar.date, Side.buy, o.size, price, cost, comm, o.reason⟩ ::
                s.trade_log }
          else { s with order := none }
      | Side.sell =>
          let price := bar.close * (1 - slip)
          let proceeds := (o.size : ℚ) * price
          let comm := proceeds * p.commission
          { s with
            cash := s.cash + proceeds - comm
            position := s.position - (o.size : ℤ)
            buy_price := none
            order := none
            trade_log := ⟨bar.date, Side.sell, o.size, price, proceeds, comm, o.reason⟩ ::
              s.trade_log }

/-- The generated `next`: return immediately while an order is pending;
with no position, evaluate the AND of the entry conditions and place a
buy for `_determine_size` shares when positive (an empty compiled entry
list generates `pass`); with a position, run the exit chain on the full
position size (`_place_order` ignores non-positive sizes). -/
def nextStep (strat : CompiledStrategy) (bar : Bar) (s : StratState) : StratState :=
  if s.order.isSome then s
  else if s.position = 0 then
    if strat.entry.isEmpty then s
    else if strat.entry.all (fun c => evalOp c.op (barInd bar c.line) (rhsVal bar c.rhs)) then
      let sz := determine_size strat.position_config s.cash (some bar.close)
      if 0 < sz then
        { s with order := some ⟨Side.buy, sz.toNat, Reason.entrySignal strat.entry⟩ }
      else s
    else s
  else
    let size := s.position.natAbs
    if size = 0 then s
    else
      match exitDecision strat.exits s.buy_price bar.close with
      | some c => { s with order := some ⟨Side.sell, size, Reason.exitRule c⟩ }
      | none => s

/-- The EquityCurveAnalyzer record for the current bar: portfolio value is
cash plus the position marked at the close; pnl is measured against the
starting value (with Python falsy-zero handling); the period return is 0
on the first sample or when the previous value is 0. -/
def equitySample (bar : Bar) (prev : Option ℚ) (startVal : ℚ) (s : StratState) :
    EquitySample :=
  let value := s.cash + (s.position : ℚ) * bar.close
  let starting := if startVal = 0 then value else startVal
  { timestamp := bar.date
    value := value
    cash := s.cash
    pnl := value - starting
    return_pct :=
      match prev with
      | none => 0
      | some pv => if pv = 0 then 0 else value / pv - 1 }

/-- The per-bar loop: broker order processing, then the strategy `next`,
then the equity analyzer. -/
def runLoop (strat : CompiledStrategy) (p : CostParams) :
    List Bar → StratState → Option ℚ → ℚ → StratState × List EquitySample
  | [], s, _, _ => (s, [])
  | bar :: rest, s, prev, startVal =>
      let s1 := fillOrder p bar s
      let s2 := nextStep strat bar s1
      let eq := equitySample bar prev startVal s2
      let r := runLoop strat p rest s2 (some eq.value) startVal
      (r.1, eq :: r.2)

/-- A full single-feed simulation from the initial broker state: returns
the chronological trade ledger and the equity curve. -/
def runSim (strat : CompiledStrategy) (bars : List Bar) (p : CostParams) :
    List TradeRec × List EquitySample :=
  let s0 : StratState := ⟨p.cash, 0, none, none, []⟩
  let r := runLoop strat p bars s0 none p.cash
  (r.1.trade_log.reverse, r.2)

/-- Result of BacktestEngine.run_backtest: an error record, or the trade
log and equity curve of a successful run. -/
inductive RunResult where
  | failure : String → RunResult
  | ok : List TradeRec → List EquitySample → RunResult
deriving DecidableEq

/-- BacktestEngine.run_backtest: feeds are loaded per symbol, empty frames
are skipped with a warning; when no feed loads the run fails with
"No data feeds could be loaded"; otherwise the simulation runs (the
generated strategy reads `self.data`, the first feed). -/
def run_backtest (strat : CompiledStrategy) (symbols : List String)
    (bars : String → List Bar) (p : CostParams) : RunResult :=
  let feeds := symbols.filterMap fun sym =>
    if (bars sym).isEmpty then none else some (sym, bars sym)
  match feeds with
  | [] => RunResult.failure "No data feeds could be loaded"
  | (_, b) :: _ =>
      let r := runSim strat b p
      RunResult.ok r.1 r.2

/-- The ambient environment a Python process could observe: a wall clock
and an entropy source.  run_backtest receives it here to state that the
simulation path never consults it (the source reads neither
`datetime.now` nor any randomness between loading the feeds and
returning the results). -/
structure Env where
  wall_clock : ℕ → ℤ
  random : ℕ → ℚ

/-- run_backtest as executed inside an ambient environment. -/
def run_backtest_env (_env : Env) (strat : CompiledStrategy) (symbols : List String)
    (bars : String → List Bar) (p : CostParams) : RunResult :=
  run_backtest strat symbols bars p

/-! ## Theorems -/

theorem ewmFrom_length (alpha : ℚ) :
    ∀ (xs : List ℚ) (prev : ℚ), (ewmFrom alpha prev xs).length = xs.length
  | [], _ => rfl
  | x :: xs, prev => by
      simp [ewmFrom, ewmFrom_length alpha xs]

theorem ewmFrom_getElem? (alpha : ℚ) :
    ∀ (xs : List ℚ) (prev : ℚ) (j : ℕ),
      (ewmFrom alpha prev xs)[j]? =
        match xs[j]?, (prev :: ewmFrom alpha prev xs)[j]? with
        | some a, some p => some ((1 - alpha) * p + alpha * a)
        | _, _ => none
  | [], _, j => by simp [ewmFrom]
  | x :: xs, prev, 0 => by simp [ewmFrom]
  | x :: xs, prev, j + 1 => by
      simpa [ewmFrom] using
        ewmFrom_getElem? alpha xs ((1 - alpha) * prev + alpha * x) j

/-- C7: for every input series and period, the EMA produced by the source
(pandas `ewm(span=period, adjust=False).mean()`) has one output per input
bar and agrees at every index with the recursive definition of the
specification, `ema[0] = x[0]`,
`ema[i] = alpha * x[i] + (1 - alpha) * ema[i-1]`, `alpha = 2/(period+1)`;
the output is everywhere defined (no NaN is introduced). -/
theorem c7_ema_matches_spec_recursion (prices : List ℚ) (period : ℕ) :
    (calculate_ema prices period).length = prices.length ∧
    ∀ i : ℕ,
      (calculate_ema prices period)[i]? =
        emaSpecAt (2 / ((period : ℚ) + 1)) prices i := by
  constructor
  · cases prices with
    | nil => rfl
    | cons x xs => simp [calculate_ema, ewmFrom_length]
  · intro i
    induction i with
    | zero =>
        cases prices with
        | nil => simp [calculate_ema, emaSpecAt]
        | cons x xs => simp [calculate_ema, emaSpecAt]
    | succ j ih =>
        cases prices with
        | nil => simp [calculate_ema, emaSpecAt]
        | cons x xs =>
            rw [emaSpecAt, ← ih]
            simp only [calculate_ema, List.getElem?_cons_succ]
            rw [ewmFrom_getElem? (2 / ((period : ℚ) + 1)) xs x j]
            cases hx : xs[j]? with
            | none => simp
            | some a =>
                cases hp : (x :: ewmFrom (2 / ((period : ℚ) + 1)) x xs)[j]? with
                | none => simp
                | some p => simp [add_comm]

theorem rsi_getElem? (prices : List ℚ) (period i : ℕ) (hi : i < prices.length) :
    (calculate_rsi prices period)[i]? =
      some
        (FV.sub (FV.fin 100)
          (FV.div (FV.fin 100)
            (FV.add (FV.fin 1)
              (FV.div (rollMeanAt (gainSeries prices) period i)
                (rollMeanAt (lossSeries prices) period i))))) := by
  simp [calculate_rsi, List.getElem?_range, hi]

/-- C4 (amended): at an index with a full window, when the rolling average
loss is exactly 0, the RSI is exactly 100 when the average gain is
positive, and NaN when the average gain is 0 as well (flat prices); in
either case the computation is total, so no division error is raised. -/
theorem c4_rsi_at_zero_avg_loss (prices : List ℚ) (period i : ℕ)
    (hi : i < prices.length)
    (hloss : rollMeanAt (lossSeries prices) period i = FV.fin 0) :
    (∀ g : ℚ, rollMeanAt (gainSeries prices) period i = FV.fin g → 0 < g →
      (calculate_rsi prices period)[i]? = some (FV.fin 100)) ∧
    (rollMeanAt (gainSeries prices) period i = FV.fin 0 →
      (calculate_rsi prices period)[i]? = some FV.nan) := by
  constructor
  · intro g hgain hg
    rw [rsi_getElem? prices period i hi, hloss, hgain]
    have hg0 : ¬ g = 0 := ne_of_gt hg
    simp [FV.div, FV.add, FV.sub, FV.neg, hg0, hg]
  · intro hgain
    rw [rsi_getElem? prices period i hi, hloss, hgain]
    simp [FV.div, FV.add, FV.sub, FV.neg]

/-- C4 (counterexample): for the flat price series [5, 5, 5] with period 2,
the average loss at index 2 is exactly 0 over a full window, yet the RSI
is NaN, not 100: the claim fails whenever the average gain is 0 too. -/
theorem c4_counterexample :
    rollMeanAt (lossSeries [5, 5, 5]) 2 2 = FV.fin 0 ∧
    (calculate_rsi [5, 5, 5] 2)[2]? = some FV.nan := by
  have hl : rollMeanAt (lossSeries [5, 5, 5]) 2 2 = FV.fin 0 := by
    norm_num [rollMeanAt, lossSeries, diffSeries]
  have hg : rollMeanAt (gainSeries [5, 5, 5]) 2 2 = FV.fin 0 := by
    norm_num [rollMeanAt, gainSeries, diffSeries]
  refine ⟨hl, ?_⟩
  rw [rsi_getElem? [5, 5, 5] 2 2 (by decide), hl, hg]
  rfl

/-- C4 (witness): prices [10, 20, 30], period 2, index 2: the average loss
is 0, the average gain is 10 > 0, and the RSI is exactly 100. -/
theorem c4_witness :
    (2 : ℕ) < ([10, 20, 30] : List ℚ).length ∧
    rollMeanAt (lossSeries [10, 20, 30]) 2 2 = FV.fin 0 ∧
    rollMeanAt (gainSeries [10, 20, 30]) 2 2 = FV.fin 10 ∧
    (0 : ℚ) < 10 ∧
    (calculate_rsi [10, 20, 30] 2)[2]? = some (FV.fin 100) := by
  have hl : rollMeanAt (lossSeries [10, 20, 30]) 2 2 = FV.fin 0 := by
    norm_num [rollMeanAt, lossSeries, diffSeries]
  have hg : rollMeanAt (gainSeries [10, 20, 30]) 2 2 = FV.fin 10 := by
    norm_num [rollMeanAt, gainSeries, diffSeries]
  exact ⟨by decide, hl, hg, by norm_num,
    (c4_rsi_at_zero_avg_loss [10, 20, 30] 2 2 (by decide) hl).1 10 hg (by norm_num)⟩

/-- C10: the generated percent_cash `_determine_size` returns
`floor(cash * fraction / price)` when that is positive, and otherwise
falls back to `floor(cash / price)` when that is positive, allocating up
to all available cash for a single entry. -/
theorem c10_percent_cash_sizing (value cash price : ℚ)
    (hc : 0 < cash) (hp : 0 < price) :
    (0 < ⌊cash * value / price⌋ →
      determine_size ⟨some "percent_cash", some value⟩ cash (some price) =
        ⌊cash * value / price⌋) ∧
    (⌊cash * value / price⌋ = 0 → 0 < ⌊cash / price⌋ →
      determine_size ⟨some "percent_cash", some value⟩ cash (some price) =
        ⌊cash / price⌋) := by
  have hp0 : ¬ price ≤ 0 := not_le.mpr hp
  have hc0 : ¬ cash ≤ 0 := not_le.mpr hc
  constructor
  · intro h
    have h2 : ¬ ⌊cash * value / price⌋ ≤ 0 := not_le.mpr h
    simp [determine_size, hp0, hc0, h2, max_eq_left h.le]
  · intro h h2
    simp [determine_size, hp0, hc0, h, max_eq_left h2.le]

/-- C10 (witness): with 1 percent sizing, 50 cash and price 30, the
fraction-sized order floors to 0 shares, and the generated code falls
back to the full-cash size of 1 share. -/
theorem c10_witness :
    (0 : ℚ) < 50 ∧ (0 : ℚ) < 30 ∧
    ⌊(50 : ℚ) * (1 / 100) / 30⌋ = 0 ∧ 0 < ⌊(50 : ℚ) / 30⌋ ∧
    determine_size ⟨some "percent_cash", some (1 / 100)⟩ 50 (some 30) =
      ⌊(50 : ℚ) / 30⌋ := by
  have h1 : ⌊(50 : ℚ) * (1 / 100) / 30⌋ = 0 := by norm_num [Int.floor_eq_iff]
  have h2 : (0 : ℤ) < ⌊(50 : ℚ) / 30⌋ := by
    have h3 : ⌊(50 : ℚ) / 30⌋ = 1 := by norm_num [Int.floor_eq_iff]
    simp [h3]
  exact ⟨by norm_num, by norm_num, h1, h2,
    (c10_percent_cash_sizing (1 / 100) 50 30 (by norm_num) (by norm_num)).2 h1 h2⟩

/-- C5 (counterexample): a StrategySpec whose ExitRule carries the
negative percentage -0.05 is not rejected: the compiler embeds it
unchanged into the generated exit logic, and the resulting clause is
live, firing for a close of 104 above the entry price 100. -/
theorem c5_counterexample :
    compileExit [⟨"stop_loss", some (-(1 : ℚ) / 20)⟩] =
      [⟨ExitKind.stop_loss, -(1 : ℚ) / 20⟩] ∧
    clauseFires ⟨ExitKind.stop_loss, -(1 : ℚ) / 20⟩ (some 100) 104 = true := by
  constructor
  · rfl
  · norm_num [clauseFires]

/-- C5 (amended): compilation performs no semantic validation: an exit
percentage of any sign is embedded verbatim, a missing percentage is
silently defaulted to 0.1, an entry condition whose indicator name has no
feed-line mapping is silently dropped, and the operator string is
embedded without being checked. -/
theorem c5_compiler_accepts_invalid_spec :
    (∀ pct : ℚ, compileExit [⟨"stop_loss", some pct⟩] =
      [⟨ExitKind.stop_loss, pct⟩]) ∧
    compileExit [⟨"stop_loss", none⟩] = [⟨ExitKind.stop_loss, 1 / 10⟩] ∧
    compileEntry [⟨"indicator", "FOO", some 14, some ">", RawRhs.num 5⟩] = [] ∧
    (∀ op : String, compileEntry [⟨"indicator", "SMA", some 20, some op, RawRhs.num 5⟩] =
      [⟨"sma_20", op, CondRhs.lit 5⟩]) := by
  have hs : ("sma_" ++ toString 20 : String) = "sma_20" := by decide
  exact ⟨fun _ => rfl, rfl, rfl, fun _ => by simp [compileEntry, indicatorLine, hs]⟩

/-- C3 (counterexample): with a one-symbol universe whose bar sequence is
empty, run_backtest reports the run as an error ("No data feeds could be
loaded") and produces neither trade records nor any equity point, rather
than a zero-trade success with one degenerate equity sample. -/
theorem c3_counterexample :
    run_backtest ⟨[], [], ⟨none, none⟩⟩ ["AAPL"] (fun _ => [])
        ⟨5 / 1000, 5, 100000⟩ =
      RunResult.failure "No data feeds could be loaded" := rfl

/-- C3 (amended): whenever the bar sequence of every requested instrument
is empty, run_backtest loads no feed and reports failure with the error
string "No data feeds could be loaded"; no trade record and no equity
sample are produced. -/
theorem c3_all_empty_feeds_fail (strat : CompiledStrategy) (symbols : List String)
    (bars : String → List Bar) (p : CostParams)
    (h : ∀ s ∈ symbols, bars s = []) :
    run_backtest strat symbols bars p =
      RunResult.failure "No data feeds could be loaded" := by
  have hfeeds :
      (symbols.filterMap fun sym =>
        if (bars sym).isEmpty then none else some (sym, bars sym)) = [] := by
    rw [List.filterMap_eq_nil_iff]
    intro a ha
    simp [h a ha]
  unfold run_backtest
  rw [hfeeds]

/-- C3 (witness): a two-symbol universe with all-empty bar data satisfies
the hypothesis and yields the failure result. -/
theorem c3_witness :
    (∀ s ∈ ["AAPL", "MSFT"], (fun _ => ([] : List Bar)) s = []) ∧
    run_backtest ⟨[], [], ⟨none, none⟩⟩ ["AAPL", "MSFT"] (fun _ => [])
        ⟨5 / 1000, 5, 100000⟩ =
      RunResult.failure "No data feeds could be loaded" :=
  ⟨fun _ _ => rfl, c3_all_empty_feeds_fail _ _ _ _ (fun _ _ => rfl)⟩

/-- C9: the backtest result - trade ledger and equity curve included - is
identical across any two ambient environments (wall clock, entropy
source): the simulation path never consults them, so two executions on
fixed (strategy, bars, costs) produce identical output. -/
theorem c9_determinism (e1 e2 : Env) (strat : CompiledStrategy)
    (symbols : List String) (bars : String → List Bar) (p : CostParams) :
    run_backtest_env e1 strat symbols bars p =
      run_backtest_env e2 strat symbols bars p := rfl

/-- C6: the Sortino computation leaks NaN when exactly one sub-risk-free
return exists: the single downside sample has NaN sample standard
deviation (ddof = 1), the float `== 0` guard does not catch NaN, and the
NaN propagates through the division to the result - contradicting the
requirement that the ratio always be a real number. -/
theorem c6_sortino_nan_single_downside :
    sortino [FV.fin (-(1 : ℝ) / 10), FV.fin (1 / 2)] none = FV.nan := by
  have hx : (0 : ℝ) < 1 + 2 / 100 := by norm_num
  have h1 : (1 : ℝ) < ((1 : ℝ) + 2 / 100) ^ ((252 : ℝ))⁻¹ := by
    rw [Real.one_lt_rpow_iff_of_pos hx]
    exact Or.inl ⟨by norm_num, by norm_num⟩
  have h2 : ((1 : ℝ) + 2 / 100) ^ ((252 : ℝ))⁻¹ ≤ 1 + 2 / 100 := by
    have h3 := Real.rpow_le_rpow_of_exponent_le
      (by norm_num : (1 : ℝ) ≤ 1 + 2 / 100) (by norm_num : ((252 : ℝ))⁻¹ ≤ 1)
    simpa [Real.rpow_one] using h3
  have hda : (-1 / 10 : ℝ) < (1 + 2 / 100) ^ ((252 : ℝ))⁻¹ - 1 := by
    linarith
  have hdb : ¬ ((2 : ℝ)⁻¹ < (1 + 2 / 100) ^ ((252 : ℝ))⁻¹ - 1) := by
    push_neg
    linarith
  simp [sortino, List.filter, FV.blt, hda, hdb, FV.isNan, seriesStd, countNonNan,
    FV.eqZero, FV.beq, FV.div_nan, FV.mul_nan]

/-- C2 (counterexample): on the empty equity curve, calculate_metrics
returns the empty dictionary, not a metrics record with total_return = 0
(or any other key): the claim fails at length 0. -/
theorem c2_counterexample :
    ¬ ∃ m : Metrics,
      calculate_metrics [] none = some m ∧ m.tot_return = FV.fin 0 := by
  simp [calculate_metrics]

/-- C2 (amended): a length-0 equity curve yields the empty metrics
dictionary; a length-1 curve yields all six metrics equal to 0 when its
single value is nonzero, while a single zero-valued sample yields NaN for
max_drawdown and Calmar (float 0/0) and 0 for the rest; no case raises. -/
theorem c2_metrics_short_curve :
    calculate_metrics [] none = none ∧
    (∀ (d : ℤ) (v : ℝ), v ≠ 0 →
      calculate_metrics [⟨d, v⟩] none =
        some ⟨FV.fin 0, FV.fin 0, FV.fin 0, FV.fin 0, FV.fin 0, FV.fin 0, none⟩) ∧
    (∀ d : ℤ,
      calculate_metrics [⟨d, (0 : ℝ)⟩] none =
        some ⟨FV.fin 0, FV.fin 0, FV.nan, FV.fin 0, FV.fin 0, FV.nan, none⟩) := by
  refine ⟨by simp [calculate_metrics], fun d v hv => ?_, fun d => ?_⟩
  · simp [calculate_metrics, total_return, cagr, max_drawdown, sharpe, sortino,
      calmar, pct_change, dropna, seriesMin, cummaxFrom, FV.div, FV.abs,
      FV.eqZero, FV.beq, FV.isNan, hv, sub_self, zero_div, max_self]
  · simp [calculate_metrics, total_return, cagr, max_drawdown, sharpe, sortino,
      calmar, pct_change, dropna, seriesMin, cummaxFrom, FV.div, FV.abs,
      FV.eqZero, FV.beq, FV.isNan, sub_self, max_self]

/-- C2 (witness): the length-1 curve with value 100 satisfies the nonzero
hypothesis and yields the all-zero metrics record. -/
theorem c2_witness :
    (100 : ℝ) ≠ 0 ∧
    calculate_metrics [⟨0, (100 : ℝ)⟩] none =
      some ⟨FV.fin 0, FV.fin 0, FV.fin 0, FV.fin 0, FV.fin 0, FV.fin 0, none⟩ :=
  ⟨by norm_num, (c2_metrics_short_curve.2.1) 0 100 (by norm_num)⟩

theorem exitDecision_first_match :
    ∀ (clauses : List ExitClause) (bp : Option ℚ) (close : ℚ) (i : ℕ)
      (hi : i < clauses.length),
      clauseFires (clauses.get ⟨i, hi⟩) bp close = true →
      (∀ j (hj : j < i), clauseFires (clauses.get ⟨j, by omega⟩) bp close = false) →
      exitDecision clauses bp close = some (clauses.get ⟨i, hi⟩)
  | [], _, _, i, hi => absurd hi (Nat.not_lt_zero i)
  | c :: rest, bp, close, 0, _ => fun hfire _ => by
      simp only [List.get] at hfire ⊢
      simp [exitDecision, hfire]
  | c :: rest, bp, close, i + 1, hi => fun hfire hbefore => by
      have h0 : clauseFires c bp close = false := hbefore 0 (Nat.succ_pos i)
      have ih := exitDecision_first_match rest bp close i
        (Nat.lt_of_succ_lt_succ hi) (by simpa using hfire)
        (fun j hj => by simpa using hbefore (j + 1) (Nat.succ_lt_succ hj))
      simpa [exitDecision, h0] using ih

/-- C1: in state Long with a non-empty position and no pending order, the
generated exit logic selects the first exit clause (in declaration
order) whose predicate holds and places a SELL of the full position size
carrying that clause as its reason; clauses declared after it have no
effect on the order. -/
theorem c1_exit_first_firing_rule (strat : CompiledStrategy) (bar : Bar)
    (s : StratState) (i : ℕ) (hi : i < strat.exits.length)
    (hord : s.order = none) (hpos : 0 < s.position)
    (hfire : clauseFires (strat.exits.get ⟨i, hi⟩) s.buy_price bar.close = true)
    (hbefore : ∀ j (hj : j < i),
      clauseFires (strat.exits.get ⟨j, by omega⟩) s.buy_price bar.close = false) :
    nextStep strat bar s =
      { s with order := some ⟨Side.sell, s.position.natAbs,
          Reason.exitRule (strat.exits.get ⟨i, hi⟩)⟩ } := by
  have hdec := exitDecision_first_match strat.exits s.buy_price bar.close i hi
    hfire hbefore
  have hno : ¬ s.position = 0 := by omega
  have hsz : ¬ s.position.natAbs = 0 := by omega
  simp [nextStep, hord, hno, hsz, hdec]

/-- Fixed data for the C1 witness: StopLoss(0.08) declared before
TakeProfit(0.15). -/
def w1Strat : CompiledStrategy :=
  ⟨[], [⟨ExitKind.stop_loss, 8 / 100⟩, ⟨ExitKind.take_profit, 15 / 100⟩],
    ⟨some "percent_cash", some (1 / 4)⟩⟩

/-- The C1 witness bar: close 91, nine percent below the entry price. -/
def w1Bar : Bar := ⟨"2024-01-02", 91, []⟩

/-- The C1 witness state: long 50 shares bought at 100. -/
def w1State : StratState := ⟨500, 50, some 100, none, []⟩

/-- C1 (witness): with entry price 100 and close 91, the stop-loss clause
fires and the generated logic places a SELL of all 50 shares attributed
to the stop loss, not the take profit. -/
theorem c1_witness :
    clauseFires ⟨ExitKind.stop_loss, 8 / 100⟩ (some 100) 91 = true ∧
    nextStep w1Strat w1Bar w1State =
      { w1State with order := some ⟨Side.sell, 50,
          Reason.exitRule ⟨ExitKind.stop_loss, 8 / 100⟩⟩ } := by
  have hf : clauseFires (⟨ExitKind.stop_loss, 8 / 100⟩ : ExitClause)
      (some 100) 91 = true := by
    norm_num [clauseFires]
  exact ⟨hf,
    c1_exit_first_firing_rule w1Strat w1Bar w1State 0 (by decide) rfl (by decide)
      hf (fun j hj => absurd hj (Nat.not_lt_zero j))⟩

/-! ### Single position invariant (C8) -/

/-- The side of the most recent record of the newest-first trade log. -/
def headSide (l : List TradeRec) : Option Side := l.head?.map TradeRec.side

/-- Two adjacent trade records are not both BUYs. -/
def NoAdjBuy (a b : TradeRec) : Prop := ¬(a.side = Side.buy ∧ b.side = Side.buy)

/-- The run-time invariant of the generated strategy and broker state:
the position is never short, the (newest-first) trade log has no
adjacent BUYs, an open position means the newest record is its BUY,
a flat state means the newest record is not a BUY, a pending buy exists
only while flat and has positive size, and a pending sell covers exactly
the open position. -/
structure Inv (s : StratState) : Prop where
  pos_nonneg : 0 ≤ s.position
  chain : List.Chain' NoAdjBuy s.trade_log
  pos_buy : s.position ≠ 0 → headSide s.trade_log = some Side.buy
  flat_not_buy : s.position = 0 → headSide s.trade_log ≠ some Side.buy
  order_buy : ∀ o, s.order = some o → o.side = Side.buy →
    s.position = 0 ∧ 0 < o.size
  order_sell : ∀ o, s.order = some o → o.side = Side.sell →
    (o.size : ℤ) = s.position

theorem headSide_of_head? {l : List TradeRec} {y : TradeRec}
    (hy : y ∈ l.head?) : headSide l = some y.side := by
  have h1 : l.head? = some y := Option.mem_def.mp hy
  simp [headSide, h1]

theorem inv_fillOrder (p : CostParams) (bar : Bar) (s : StratState) (h : Inv s) :
    Inv (fillOrder p bar s) := by
  cases ho : s.order with
  | none => simpa [fillOrder, ho] using h
  | some o =>
      cases hside : o.side with
      | buy =>
          obtain ⟨hpos0, hsz⟩ := h.order_buy o ho hside
          have hhead := h.flat_not_buy hpos0
          simp only [fillOrder, ho, hside]
          split
          · refine ⟨by dsimp only; omega, ?_, ?_, ?_, ?_, ?_⟩
            · refine List.chain'_cons'.mpr ⟨?_, h.chain⟩
              intro y hy hc
              exact hhead (by rw [headSide_of_head? hy, hc.2])
            · intro _
              simp [headSide]
            · intro h0
              dsimp only at h0
              omega
            · intro o' ho'
              simp at ho'
            · intro o' ho'
              simp at ho'
          · exact ⟨h.pos_nonneg, h.chain, h.pos_buy, h.flat_not_buy,
              fun o' ho' => by simp at ho', fun o' ho' => by simp at ho'⟩
      | sell =>
          have hsz := h.order_sell o ho hside
          simp only [fillOrder, ho, hside]
          refine ⟨by dsimp only; omega, ?_, ?_, ?_, ?_, ?_⟩
          · refine List.chain'_cons'.mpr ⟨?_, h.chain⟩
            intro y hy hc
            exact absurd hc.1 (by simp)
          · intro hne
            dsimp only at hne
            exact absurd (by omega : s.position - (o.size : ℤ) = 0) hne
          · intro _
            simp [headSide]
          · intro o' ho'
            simp at ho'
          · intro o' ho'
            simp at ho'

theorem inv_nextStep (strat : CompiledStrategy) (bar : Bar) (s : StratState)
    (h : Inv s) : Inv (nextStep strat bar s) := by
  unfold nextStep
  split
  · exact h
  · split
    · rename_i hpos0
      split
      · exact h
      · split
        · dsimp only
          split
          · rename_i hszpos
            exact ⟨h.pos_nonneg, h.chain, h.pos_buy, h.flat_not_buy,
              fun o' ho' _ => by
                simp only [Option.some.injEq] at ho'
                refine ⟨hpos0, ?_⟩
                rw [← ho']
                dsimp only
                omega,
              fun o' ho' hside' => by
                simp only [Option.some.injEq] at ho'
                rw [← ho'] at hside'
                simp at hside'⟩
          · exact h
        · exact h
    · rename_i hne
      dsimp only
      split
      · exact h
      · rename_i hsz
        split
        · rename_i c hc
          exact ⟨h.pos_nonneg, h.chain, h.pos_buy, h.flat_not_buy,
            fun o' ho' hside' => by
              simp only [Option.some.injEq] at ho'
              rw [← ho'] at hside'
              simp at hside',
            fun o' ho' _ => by
              simp only [Option.some.injEq] at ho'
              rw [← ho']
              dsimp only
              simp [Int.natAbs_of_nonneg h.pos_nonneg]⟩
        · exact h

theorem inv_runLoop (strat : CompiledStrategy) (p : CostParams) :
    ∀ (bars : List Bar) (s : StratState) (prev : Option ℚ) (startVal : ℚ),
      Inv s → Inv (runLoop strat p bars s prev startVal).1
  | [], _, _, _, h => h
  | bar :: rest, s, prev, startVal, h => by
      simp only [runLoop]
      exact inv_runLoop strat p rest _ _ _
        (inv_nextStep strat bar _ (inv_fillOrder p bar s h))

/-- C8: in every run, for every pair of adjacent records of the trade
ledger, they are never both BUYs: the generated strategy evaluates entry
conditions only while it holds no position and no pending order, so a
second BUY can only appear after the prior position was closed by a
SELL; a single signed position per instrument is maintained throughout. -/
theorem c8_no_double_buy (strat : CompiledStrategy) (bars : List Bar)
    (p : CostParams) (i : ℕ) (h : i + 1 < (runSim strat bars p).1.length)
    (hb : ((runSim strat bars p).1.get ⟨i, by omega⟩).side = Side.buy) :
    ((runSim strat bars p).1.get ⟨i + 1, h⟩).side ≠ Side.buy := by
  have hinv : Inv (runLoop strat p bars ⟨p.cash, 0, none, none, []⟩ none p.cash).1 :=
    inv_runLoop strat p bars _ none p.cash
      ⟨le_refl 0, List.chain'_nil, fun hc => absurd rfl hc,
        fun _ => by simp [headSide], fun o ho => by simp at ho,
        fun o ho => by simp at ho⟩
  have hflip : List.Chain' (flip NoAdjBuy)
      ((runLoop strat p bars ⟨p.cash, 0, none, none, []⟩ none p.cash).1.trade_log) :=
    List.Chain'.imp (fun a b hab hc => hab ⟨hc.2, hc.1⟩) hinv.chain
  have hchain : List.Chain' NoAdjBuy (runSim strat bars p).1 := by
    have hrev := List.chain'_reverse.mpr hflip
    simpa [runSim] using hrev
  have hpair := List.chain'_iff_get.mp hchain i (by omega)
  intro hb2
  exact hpair ⟨hb, hb2⟩

/-- Fixed data for the C8 witness: enter when SMA(20) > 5, exit on a ten
percent stop loss, half the cash per entry. -/
def wStrat : CompiledStrategy :=
  ⟨[⟨"sma_20", ">", CondRhs.lit 5⟩], [⟨ExitKind.stop_loss, 1 / 10⟩],
    ⟨some "percent_cash", some (1 / 2)⟩⟩

/-- The C8 witness bars: an entry signal, a fill, a ten percent drop
triggering the stop, the sell fill together with a fresh signal, and the
second fill. -/
def wBars : List Bar :=
  [⟨"d1", 10, [("sma_20", FV.fin 6)]⟩,
   ⟨"d2", 10, []⟩,
   ⟨"d3", 8, []⟩,
   ⟨"d4", 8, [("sma_20", FV.fin 6)]⟩,
   ⟨"d5", 8, []⟩]

/-- The C8 witness costs: no commission, no slippage, 1000 cash. -/
def wCosts : CostParams := ⟨0, 0, 1000⟩

set_option maxHeartbeats 1000000 in
/-- The trade sides produced by the C8 witness run: a BUY, the stop-loss
SELL, and a second BUY. -/
theorem c8w_log :
    (runSim wStrat wBars wCosts).1.map TradeRec.side =
      [Side.buy, Side.sell, Side.buy] := by
  have h50 : Int.toNat 50 = 50 := by simp
  have h56 : Int.toNat 56 = 56 := by simp
  norm_num [runSim, runLoop, fillOrder, nextStep, determine_size, exitDecision,
    clauseFires, barInd, rhsVal, evalOp, FV.blt, List.lookup, wStrat, wBars,
    wCosts, h50, h56, Nat.cast_ofNat]

theorem c8w_lt0 : 0 < (runSim wStrat wBars wCosts).1.length := by
  have h1 := congrArg List.length c8w_log
  simp at h1
  omega

theorem c8w_lt1 : 0 + 1 < (runSim wStrat wBars wCosts).1.length := by
  have h1 := congrArg List.length c8w_log
  simp at h1
  omega

theorem c8w_first_buy :
    ((runSim wStrat wBars wCosts).1.get ⟨0, c8w_lt0⟩).side = Side.buy := by
  have h1 : ((runSim wStrat wBars wCosts).1.map TradeRec.side)[0]? =
      some Side.buy := by
    rw [c8w_log]
    rfl
  rw [List.getElem?_map, List.getElem?_eq_getElem c8w_lt0] at h1
  simpa [List.get_eq_getElem] using h1

/-- C8 (witness): in the witness run the first ledger record is a BUY and,
by the no-double-BUY theorem, the record after it is not a BUY (it is the
stop-loss SELL). -/
theorem c8_witness :
    ((runSim wStrat wBars wCosts).1.get ⟨0, c8w_lt0⟩).side = Side.buy ∧
    ((runSim wStrat wBars wCosts).1.get ⟨0 + 1, c8w_lt1⟩).side ≠ Side.buy :=
  ⟨c8w_first_buy,
    c8_no_double_buy wStrat wBars wCosts 0 c8w_lt1 c8w_first_buy⟩

end MeTrade
